import Mathlib

/-!
Verification development for the job-lifecycle service (`mm/db.py`, `mm/app.py`).

The embedding models the SQLite-backed state as an explicit `DbState`:
a list of job rows (`app_jobs`), a list of history rows (`app_job_histories`,
append-only, written by the `append_job_history` trigger), and counters for
the next auto-assigned primary keys (SQLite rowids are `max + 1` and rows are
never deleted, so a counter is an exact model).  Timestamps are `Int` (an
abstract clock); the current time `now` is passed explicitly where the code
reads `STRFTIME('NOW')` / `datetime.utcnow()`.  Random draws
(`uniform(...)`, `randrange(0, 10, 1)`) are passed as explicit parameters.
Python truthiness of `datetime` values is always `true`, so an optional
datetime argument is modelled as `Option Int` with `none` for Python `None`.
-/

namespace MM

/-- The `JobStatus` enum from `mm/db.py`. -/
inductive JobStatus where
  | PENDING
  | RUNNING
  | DONE
  | CANCELED
deriving DecidableEq, Repr

/-- A row of the `app_jobs` table (class `DbJob`).  `message` is the only
nullable column (`UnicodeText` with no `nullable=False`). -/
structure DbJob where
  job_id : Nat
  created_at : Int
  next_attempt_at : Int
  status : JobStatus
  status_at : Int
  message : Option String
deriving DecidableEq, Repr

/-- A row of the `app_job_histories` table (class `DbJobHistory`). -/
structure DbJobHistory where
  job_history_id : Nat
  job_id : Nat
  status : JobStatus
  status_at : Int
  message : Option String
deriving DecidableEq, Repr

/-- The whole database.  `nextJobId` / `nextHistoryId` model SQLite's
monotone rowid assignment for the two tables. -/
structure DbState where
  jobs : List DbJob
  histories : List DbJobHistory
  nextJobId : Nat
  nextHistoryId : Nat
deriving DecidableEq, Repr

/-- Schema well-formedness: primary keys are unique and below the next
rowid counter.  Holds for every state reachable from an empty database. -/
def WF (s : DbState) : Prop :=
  (s.jobs.map (·.job_id)).Nodup ∧ ∀ j ∈ s.jobs, j.job_id < s.nextJobId

instance (s : DbState) : Decidable (WF s) := by
  unfold WF; infer_instance

/-- The fixed target-status → required-prior-status table from
`_update_job_status` (`mm/db.py` lines 373-380). -/
def priorStatusFor (target : JobStatus) : JobStatus :=
  match target with
  | .PENDING => .RUNNING
  | .RUNNING => .PENDING
  | .DONE => .RUNNING
  | .CANCELED => .PENDING

/-- Embeds `message = message if message else ""` (Python falsiness: `None` and the
empty string both map to `""`). -/
def msgOrEmpty (msg : Option String) : String :=
  match msg with
  | some m => if m = "" then "" else m
  | none => ""

/-- Effect on one row of the conditional
`UPDATE app_jobs SET status = target WHERE job_id = jid AND status = prior`,
combined with the per-affected-row `append_job_history` trigger body that
sets `status_at = NOW` on the updated row. -/
def applyStatusUpdate (now : Int) (jid : Nat) (prior target : JobStatus)
    (r : DbJob) : DbJob :=
  if r.job_id = jid ∧ r.status = prior then
    { r with status := target, status_at := now }
  else r

/-- History rows inserted by the `append_job_history` trigger: one per
affected row, holding the OLD `(job_id, status, status_at, message)`,
with consecutive auto-assigned `job_history_id`s. -/
def mkHistEntries (nextId : Nat) (rows : List DbJob) : List DbJobHistory :=
  match rows with
  | [] => []
  | r :: rest =>
      { job_history_id := nextId, job_id := r.job_id, status := r.status,
        status_at := r.status_at, message := r.message }
        :: mkHistEntries (nextId + 1) rest

/-- The guarded `UPDATE ... WHERE job_id = jid AND status = prior` statement
of `_update_job_status`, together with the `append_job_history` trigger it
fires.  Returns the new state and the statement's rowcount. -/
def execUpdateStatus (s : DbState) (now : Int) (jid : Nat)
    (prior target : JobStatus) : DbState × Nat :=
  let affected := s.jobs.filter fun r => decide (r.job_id = jid ∧ r.status = prior)
  ({ jobs := s.jobs.map (applyStatusUpdate now jid prior target),
     histories := s.histories ++ mkHistEntries s.nextHistoryId affected,
     nextJobId := s.nextJobId,
     nextHistoryId := s.nextHistoryId + affected.length },
   affected.length)

/-- The ORM attribute writes at the end of `_update_job_status`
(`db_job.message = message`; `if next_attempt_at: db_job.next_attempt_at =
next_attempt_at`), flushed as an `UPDATE` of those two columns only for the
row `job_id = jid`.  That flush does not mention the `status` column, so the
`append_job_history` trigger does not fire. -/
def setJobFields (s : DbState) (jid : Nat) (m : String) (naa : Option Int) :
    DbState :=
  { s with jobs := s.jobs.map fun r =>
      if r.job_id = jid then
        { r with message := some m,
                 next_attempt_at := match naa with
                   | some v => v
                   | none => r.next_attempt_at }
      else r }

/-- Embeds `_update_job_status` from `mm/db.py`: normalise the message, look up the
required prior status, run the guarded conditional write; if it affected no
row, raise `BadPriorStatusError` (encoded as the `false` flag) with nothing
mutated; otherwise set `message` and (when given) `next_attempt_at` on the
job.  The returned state is the session's pending state. -/
def updateJobStatusCore (s : DbState) (now : Int) (jid : Nat)
    (target : JobStatus) (naa : Option Int) (msg : Option String) :
    DbState × Bool :=
  let m := msgOrEmpty msg
  let prior := priorStatusFor target
  let res := execUpdateStatus s now jid prior target
  if res.2 < 1 then (res.1, false)
  else (setJobFields res.1 jid m naa, true)

/-- Embeds `db_update_job_status` from `mm/db.py`: normalise the message, delegate
to `_update_job_status`; on `BadPriorStatusError` roll the session back to
the state at entry and re-raise (flag `false`); on success commit. -/
def db_update_job_status (s : DbState) (now : Int) (jid : Nat)
    (target : JobStatus) (naa : Option Int) (msg : Option String) :
    DbState × Bool :=
  let m := msgOrEmpty msg
  let res := updateJobStatusCore s now jid target naa (some m)
  if res.2 then res else (s, false)

/-- Embeds `db_insert_job` from `mm/db.py`: `next_attempt_at` defaults to `NOW`
when the argument is falsy (i.e. `None`, since datetimes are always truthy);
`status` takes its server default `PENDING`; `created_at` and `status_at`
take their server default `NOW`; `message` is stored as given (possibly
NULL).  Returns the refreshed persisted row. -/
def db_insert_job (s : DbState) (now : Int) (naa : Option Int)
    (msg : Option String) : DbState × DbJob :=
  let naa' := match naa with
    | some v => v
    | none => now
  let row : DbJob :=
    { job_id := s.nextJobId, created_at := now, next_attempt_at := naa',
      status := .PENDING, status_at := now, message := msg }
  ({ s with jobs := s.jobs ++ [row], nextJobId := s.nextJobId + 1 }, row)

/-- Embeds `db_select_job` from `mm/db.py` (`scalar_one`, which raises
`NoResultFound` — modelled as `none` — when no row matches). -/
def db_select_job (s : DbState) (jid : Nat) : Option DbJob :=
  s.jobs.find? fun r => decide (r.job_id = jid)

/-- The `ORDER BY created_at DESC, job_id DESC` order as a relation: `jobAfter a b`
holds when `a` sorts at or before `b` in that order. -/
def jobAfter (a b : DbJob) : Prop :=
  b.created_at < a.created_at ∨
    (a.created_at = b.created_at ∧ b.job_id ≤ a.job_id)

instance : DecidableRel jobAfter := fun a b =>
  decidable_of_iff
    (b.created_at < a.created_at ∨
      (a.created_at = b.created_at ∧ b.job_id ≤ a.job_id))
    Iff.rfl

instance : IsTotal DbJob jobAfter :=
  ⟨fun a b => by unfold jobAfter; omega⟩

instance : IsTrans DbJob jobAfter :=
  ⟨fun a b c hab hbc => by unfold jobAfter at hab hbc ⊢; omega⟩

/-- Embeds `if status: stmt = stmt.where(DbJob.status == status)` — a `JobStatus`
enum member is always truthy, so filtering happens exactly when a status was
supplied. -/
def filterStatus (jobs : List DbJob) (st : Option JobStatus) : List DbJob :=
  match st with
  | none => jobs
  | some v => jobs.filter fun r => decide (r.status = v)

/-- The full ordered result set of `db_select_jobs` before OFFSET/LIMIT. -/
def selectAllJobs (s : DbState) (st : Option JobStatus) : List DbJob :=
  List.insertionSort jobAfter (filterStatus s.jobs st)

/-- Embeds `db_select_jobs` from `mm/db.py`: optional status filter, `ORDER BY
created_at DESC, job_id DESC`, then `OFFSET skip LIMIT limit`. -/
def db_select_jobs (s : DbState) (st : Option JobStatus)
    (skip limit : Nat) : List DbJob :=
  ((selectAllJobs s st).drop skip).take limit

/-- The `ORDER BY status_at DESC, job_history_id DESC` order for history rows. -/
def histAfter (a b : DbJobHistory) : Prop :=
  b.status_at < a.status_at ∨
    (a.status_at = b.status_at ∧ b.job_history_id ≤ a.job_history_id)

instance : DecidableRel histAfter := fun a b =>
  decidable_of_iff
    (b.status_at < a.status_at ∨
      (a.status_at = b.status_at ∧ b.job_history_id ≤ a.job_history_id))
    Iff.rfl

/-- Embeds `db_select_job_histories` from `mm/db.py`: rows of one job, `ORDER BY
status_at DESC, job_history_id DESC`, then `OFFSET skip LIMIT limit`. -/
def db_select_job_histories (s : DbState) (jid : Nat)
    (skip limit : Nat) : List DbJobHistory :=
  ((List.insertionSort histAfter
      (s.histories.filter fun h => decide (h.job_id = jid))).drop skip).take limit

/-- Embeds `values["message"] = values["message"] if values.get("message") else ""`
(the `ensure_message` pre-validator on `JobBase` in `mm/app.py`). -/
def ensureMessage (v : Option String) : String :=
  match v with
  | some m => if m = "" then "" else m
  | none => ""

/-- The external `Job` response model from `mm/app.py`. -/
structure Job where
  job_id : Nat
  created_at : Int
  status : JobStatus
  status_at : Int
  message : String
  next_attempt_at : Option Int
deriving DecidableEq, Repr

/-- Embeds `Job.from_orm`: the pydantic model applied to a `DbJob` row — the
`ensure_message` pre-validator, then the `blank_next_attempt_at`
root-validator which sets `next_attempt_at` to `None` whenever
`status != PENDING`. -/
def Job.fromOrm (r : DbJob) : Job :=
  { job_id := r.job_id, created_at := r.created_at, status := r.status,
    status_at := r.status_at, message := ensureMessage r.message,
    next_attempt_at :=
      if r.status ≠ JobStatus.PENDING then none else some r.next_attempt_at }

/-- The external `JobPriorStatus` response model from `mm/app.py`. -/
structure JobPriorStatus where
  job_history_id : Nat
  status : JobStatus
  status_at : Int
  message : String
deriving DecidableEq, Repr

/-- The `JobPriorStatus` model applied to a `DbJobHistory` row. -/
def JobPriorStatus.fromOrm (h : DbJobHistory) : JobPriorStatus :=
  { job_history_id := h.job_history_id, status := h.status,
    status_at := h.status_at, message := ensureMessage h.message }

/-- The domain errors the HTTP layer maps to 404 / 409. -/
inductive ApiError where
  | notFound
  | conflict
deriving DecidableEq, Repr

/-- The `/jobs` handler body (`jobs` in `mm/app.py`): `db_select_jobs`
serialised through the `Job` response model.  (The
`_fake_advance_jobs_hack` decorator runs a simulator pass first; the
handler body itself is as below for whatever state that pass produced.) -/
def jobsEndpoint (s : DbState) (st : Option JobStatus)
    (skip limit : Nat) : List Job :=
  (db_select_jobs s st skip limit).map Job.fromOrm

/-- The `/job/{job_id}` handler body (`job` in `mm/app.py`): 404 when the
row is absent, else the row through the `Job` response model. -/
def jobEndpoint (s : DbState) (jid : Nat) : Except ApiError Job :=
  match db_select_job s jid with
  | none => .error .notFound
  | some r => .ok (Job.fromOrm r)

/-- The `/job/new` handler body (`new_job` in `mm/app.py`):
`db_insert_job` serialised through the `Job` response model. -/
def newJobEndpoint (s : DbState) (now : Int) (naa : Option Int)
    (msg : Option String) : DbState × Job :=
  let res := db_insert_job s now naa msg
  (res.1, Job.fromOrm res.2)

/-- The `/job/cancel/{job_id}` handler body (`cancel_job` in `mm/app.py`):
404 when the row is absent; otherwise `db_update_job_status(...CANCELED...)`;
on `BadPriorStatusError` a 409 whose detail carries the current row through
the `Job` model; on success the refreshed row through the `Job` model. -/
def cancelJobEndpoint (s : DbState) (now : Int) (jid : Nat)
    (naa : Option Int) (msg : Option String) :
    DbState × Except ApiError Job :=
  match db_select_job s jid with
  | none => (s, .error .notFound)
  | some _ =>
      let res := db_update_job_status s now jid .CANCELED naa msg
      if res.2 then
        match db_select_job res.1 jid with
        | some r => (res.1, .ok (Job.fromOrm r))
        | none => (res.1, .error .notFound)
      else (s, .error .conflict)

/-- The `/job/{job_id}/history` handler body (`job_history` in
`mm/app.py`): pre-check existence via `db_select_job` (404 on
`NoResultFound`), else list the job's history rows through the
`JobPriorStatus` response model. -/
def jobHistoryEndpoint (s : DbState) (jid skip limit : Nat) :
    Except ApiError (List JobPriorStatus) :=
  match db_select_job s jid with
  | none => .error .notFound
  | some _ =>
      .ok ((db_select_job_histories s jid skip limit).map JobPriorStatus.fromOrm)

/-- The scan condition of `db_fake_advance_jobs`: PENDING and ready to
"execute", or RUNNING for more than 10 seconds. -/
def eligible (now : Int) (r : DbJob) : Prop :=
  (r.status = .PENDING ∧ r.next_attempt_at < now - 2) ∨
    (r.status = .RUNNING ∧ r.status_at < now - 10)

/-- The per-job target computation inside `db_fake_advance_jobs`
(`mm/db.py` lines 201-233) on a snapshot row: for PENDING, target RUNNING
with `target_status_at = next_attempt_at + uniform(0.25, 1.5)`; for RUNNING,
`target_status_at = status_at + uniform(5, 15)` and a d10 draw
(`randrange(0, 10, 1)`): 0 → DONE "Permanent failure"; 1, 2 or 3 → PENDING
with `next_attempt_at = target_status_at + 10` and "Temporary failure";
else → DONE with no message.  Other statuses log a warning and yield
nothing.  Returns `(target_status, target_status_at, target_next_attempt_at,
target_message)`. -/
def advanceTargets (snap : DbJob) (startDelta runDelta : Int) (d10 : Nat) :
    Option (JobStatus × Int × Option Int × Option String) :=
  match snap.status with
  | .PENDING => some (.RUNNING, snap.next_attempt_at + startDelta, none, none)
  | .RUNNING =>
      let tsa := snap.status_at + runDelta
      if d10 = 0 then some (.DONE, tsa, none, some "Permanent failure")
      else if d10 = 1 ∨ d10 = 2 ∨ d10 = 3 then
        some (.PENDING, tsa, some (tsa + 10), some "Temporary failure")
      else some (.DONE, tsa, none, none)
  | _ => none

/-- The post-transition `db_job.status_at = target_status_at` override in
`db_fake_advance_jobs` (committed separately; it updates only the
`status_at` column, so the `append_job_history` trigger — which fires on
updates of `status` — does not fire). -/
def setStatusAt (s : DbState) (jid : Nat) (t : Int) : DbState :=
  { s with jobs := s.jobs.map fun r =>
      if r.job_id = jid then { r with status_at := t } else r }

/-- One iteration of the `for db_job in db_jobs` loop of
`db_fake_advance_jobs`: compute targets from the snapshot row, apply
`_update_job_status` and commit, then backdate `status_at` to the computed
target (a datetime, hence always truthy); a `BadPriorStatusError` is logged
and otherwise ignored, leaving the session at the state the failed
zero-row update produced. -/
def advanceOne (s : DbState) (now : Int) (snap : DbJob)
    (startDelta runDelta : Int) (d10 : Nat) : DbState :=
  match advanceTargets snap startDelta runDelta d10 with
  | none => s
  | some (target, tsa, tnaa, tmsg) =>
      let res := updateJobStatusCore s now snap.job_id target tnaa tmsg
      if res.2 then setStatusAt res.1 snap.job_id tsa else res.1

/-- The body of one pass of `db_fake_advance_jobs` over a matched batch:
each entry carries the snapshot row and that job's random draws
(`uniform(0.25, 1.5)`, `uniform(5, 15)`, `randrange(0, 10, 1)`). -/
def processBatch (s : DbState) (now : Int)
    (batch : List (DbJob × Int × Int × Nat)) : DbState :=
  batch.foldl (fun acc e => advanceOne acc now e.1 e.2.1 e.2.2.1 e.2.2.2) s

/-! ### Helper lemmas -/

/-- A map that fixes every element of a list is the identity on it. -/
theorem map_id_of_mem {α : Type} (f : α → α) :
    ∀ l : List α, (∀ x ∈ l, f x = x) → l.map f = l
  | [], _ => rfl
  | x :: t, h => by
      simp only [List.map_cons]
      rw [h x (List.mem_cons_self x t),
        map_id_of_mem f t fun y hy => h y (List.mem_cons_of_mem x hy)]

/-- The wrapper `db_update_job_status` succeeds exactly when `_update_job_status` does. -/
theorem wrapper_flag (s : DbState) (now : Int) (jid : Nat) (target : JobStatus)
    (naa : Option Int) (msg : Option String) :
    (db_update_job_status s now jid target naa msg).2
      = (updateJobStatusCore s now jid target naa (some (msgOrEmpty msg))).2 := by
  unfold db_update_job_status
  cases h : (updateJobStatusCore s now jid target naa (some (msgOrEmpty msg))).2 <;>
    simp [h]

/-- If no persisted row with the given id currently has the required prior
status, the guarded write of `_update_job_status` matches zero rows and the
call raises `BadPriorStatusError` with the database untouched. -/
theorem core_noop (s : DbState) (now : Int) (jid : Nat) (target : JobStatus)
    (naa : Option Int) (msg : Option String)
    (h : ∀ r ∈ s.jobs, r.job_id = jid → r.status ≠ priorStatusFor target) :
    updateJobStatusCore s now jid target naa msg = (s, false) := by
  have hfilter :
      s.jobs.filter
        (fun r => decide (r.job_id = jid ∧ r.status = priorStatusFor target)) = [] := by
    refine List.filter_eq_nil_iff.mpr fun r hr => ?_
    simp only [decide_eq_true_eq, not_and]
    exact fun h1 => h r hr h1
  have hmap :
      s.jobs.map (applyStatusUpdate now jid (priorStatusFor target) target) = s.jobs := by
    refine map_id_of_mem _ _ fun r hr => ?_
    unfold applyStatusUpdate
    rw [if_neg]
    rintro ⟨h1, h2⟩
    exact h r hr h1 h2
  simp only [updateJobStatusCore, execUpdateStatus, hfilter, hmap, mkHistEntries,
    List.append_nil, List.length_nil, Nat.add_zero, Nat.zero_lt_one, if_true]

/-- The call `_update_job_status` succeeds iff some persisted row has the requested id
and the required prior status. -/
theorem core_flag_iff (s : DbState) (now : Int) (jid : Nat) (target : JobStatus)
    (naa : Option Int) (msg : Option String) :
    (updateJobStatusCore s now jid target naa msg).2 = true
      ↔ ∃ j ∈ s.jobs, j.job_id = jid ∧ j.status = priorStatusFor target := by
  simp only [updateJobStatusCore, execUpdateStatus]
  split
  · rename_i hlt
    simp only [Bool.false_eq_true, false_iff]
    rintro ⟨j, hj, h1, h2⟩
    have hmem : j ∈ s.jobs.filter
        (fun r => decide (r.job_id = jid ∧ r.status = priorStatusFor target)) :=
      List.mem_filter.mpr ⟨hj, by simp [h1, h2]⟩
    have := List.length_pos_of_mem hmem
    omega
  · rename_i hge
    simp only [true_iff]
    have hne : s.jobs.filter
        (fun r => decide (r.job_id = jid ∧ r.status = priorStatusFor target)) ≠ [] := by
      intro hnil
      rw [hnil] at hge
      simp at hge
    obtain ⟨x, hx⟩ := List.exists_mem_of_ne_nil _ hne
    obtain ⟨hxl, hxp⟩ := List.mem_filter.mp hx
    simp only [decide_eq_true_eq] at hxp
    exact ⟨x, hxl, hxp⟩

/-- With unique job ids, the guarded filter returns exactly the one matching
row. -/
theorem filter_eq_single (jid : Nat) (st : JobStatus) (l : List DbJob)
    (hnd : (l.map (·.job_id)).Nodup) (j : DbJob) (hj : j ∈ l)
    (hid : j.job_id = jid) (hst : j.status = st) :
    l.filter (fun r => decide (r.job_id = jid ∧ r.status = st)) = [j] := by
  induction l with
  | nil => cases hj
  | cons x t ih =>
    simp only [List.map_cons, List.nodup_cons] at hnd
    obtain ⟨hx_not, hnd_t⟩ := hnd
    rcases List.mem_cons.mp hj with hxj | hjt
    · subst hxj
      rw [List.filter_cons_of_pos (by simp [hid, hst])]
      have hnil : t.filter (fun r => decide (r.job_id = jid ∧ r.status = st)) = [] := by
        refine List.filter_eq_nil_iff.mpr fun r hr => ?_
        simp only [decide_eq_true_eq, not_and]
        intro hrid _
        exact hx_not (by
          rw [hid, ← hrid]
          exact List.mem_map_of_mem (·.job_id) hr)
      rw [hnil]
    · have hxne : ¬(x.job_id = jid ∧ x.status = st) := by
        rintro ⟨hxid, _⟩
        refine hx_not ?_
        rw [hxid, ← hid]
        exact List.mem_map_of_mem (·.job_id) hjt
      rw [List.filter_cons_of_neg (by simpa using hxne)]
      exact ih hnd_t hjt

/-- With unique job ids, `find?` by id returns any member carrying that id. -/
theorem find_eq_of_mem (l : List DbJob) (hnd : (l.map (·.job_id)).Nodup)
    (j : DbJob) (hj : j ∈ l) (jid : Nat) (hid : j.job_id = jid) :
    l.find? (fun r => decide (r.job_id = jid)) = some j := by
  induction l with
  | nil => cases hj
  | cons x t ih =>
    simp only [List.map_cons, List.nodup_cons] at hnd
    obtain ⟨hx_not, hnd_t⟩ := hnd
    rcases List.mem_cons.mp hj with hxj | hjt
    · subst hxj
      rw [List.find?_cons_of_pos _ (by simp [hid])]
    · rw [List.find?_cons_of_neg _ (by
        simp only [decide_eq_true_eq]
        intro hxid
        refine hx_not ?_
        rw [hxid, ← hid]
        exact List.mem_map_of_mem (·.job_id) hjt)]
      exact ih hnd_t hjt

/-- Lookup by id commutes with an id-preserving row transformation. -/
theorem find_map_id_pres (g : DbJob → DbJob) (hg : ∀ r, (g r).job_id = r.job_id)
    (jid : Nat) (l : List DbJob) :
    (l.map g).find? (fun r => decide (r.job_id = jid))
      = (l.find? (fun r => decide (r.job_id = jid))).map g := by
  induction l with
  | nil => rfl
  | cons x t ih =>
    simp only [List.map_cons]
    by_cases hx : x.job_id = jid
    · rw [List.find?_cons_of_pos _ (by simp [hg, hx]),
        List.find?_cons_of_pos _ (by simp [hx])]
      rfl
    · rw [List.find?_cons_of_neg _ (by simp [hg, hx]),
        List.find?_cons_of_neg _ (by simp [hx])]
      exact ih

/-- Applying `msgOrEmpty` to an explicit string gives that string (if it was empty, the
normalised value is the same empty string). -/
theorem msgOrEmpty_some (m : String) : msgOrEmpty (some m) = m := by
  unfold msgOrEmpty
  split <;> simp_all

/-- Success-path characterization of `_update_job_status`: with unique ids
and a matching row, the guarded write updates that single row (also firing
the trigger, which stamps `status_at := now` and appends one history row
with the old values), then the ORM writes set `message` and, when given,
`next_attempt_at`. -/
theorem core_success (s : DbState) (now : Int) (jid : Nat) (target : JobStatus)
    (naa : Option Int) (msg : Option String)
    (hnd : (s.jobs.map (·.job_id)).Nodup) (j : DbJob) (hj : j ∈ s.jobs)
    (hid : j.job_id = jid) (hst : j.status = priorStatusFor target) :
    updateJobStatusCore s now jid target naa msg
      = (setJobFields
          { jobs := s.jobs.map (applyStatusUpdate now jid (priorStatusFor target) target),
            histories := s.histories
              ++ [{ job_history_id := s.nextHistoryId, job_id := j.job_id,
                    status := j.status, status_at := j.status_at,
                    message := j.message }],
            nextJobId := s.nextJobId,
            nextHistoryId := s.nextHistoryId + 1 }
          jid (msgOrEmpty msg) naa, true) := by
  have hfilter := filter_eq_single jid (priorStatusFor target) s.jobs hnd j hj hid hst
  simp only [updateJobStatusCore, execUpdateStatus]
  rw [hfilter]
  simp [mkHistEntries]

/-- On success, `db_update_job_status` commits exactly the state
`_update_job_status` produced. -/
theorem wrapper_of_success (s : DbState) (now : Int) (jid : Nat)
    (target : JobStatus) (naa : Option Int) (msg : Option String)
    (h : (updateJobStatusCore s now jid target naa (some (msgOrEmpty msg))).2 = true) :
    db_update_job_status s now jid target naa msg
      = updateJobStatusCore s now jid target naa (some (msgOrEmpty msg)) := by
  unfold db_update_job_status
  simp [h]

/-! ### Claims -/

/-- C1: for every job and every target status, the transition operation
succeeds only if the job's current persisted status equals the unique
required prior status for that target, per the fixed table (PENDING ←
RUNNING, RUNNING ← PENDING, DONE ← RUNNING, CANCELED ← PENDING); the status
change is a single conditional write guarded by that prior status. -/
theorem c1_transition_guard_table (s : DbState) (now : Int) (jid : Nat)
    (target : JobStatus) (naa : Option Int) (msg : Option String) :
    (priorStatusFor .PENDING = .RUNNING ∧ priorStatusFor .RUNNING = .PENDING
      ∧ priorStatusFor .DONE = .RUNNING ∧ priorStatusFor .CANCELED = .PENDING)
    ∧ ((db_update_job_status s now jid target naa msg).2 = true
        ↔ ∃ j ∈ s.jobs, j.job_id = jid ∧ j.status = priorStatusFor target) := by
  refine ⟨⟨rfl, rfl, rfl, rfl⟩, ?_⟩
  rw [wrapper_flag]
  exact core_flag_iff s now jid target naa (some (msgOrEmpty msg))

/-- A one-job database used to instantiate several claims. -/
def exampleState : DbState :=
  { jobs := [{ job_id := 1, created_at := 0, next_attempt_at := 5,
               status := .RUNNING, status_at := 0, message := none }],
    histories := [], nextJobId := 2, nextHistoryId := 1 }

/-- C2: a transition whose required prior status does not match the job's
current status fails with `BadPriorStatusError` and leaves the job row and
the history table completely unchanged — no partial writes, both before and
after the session rollback. -/
theorem c2_bad_prior_no_mutation (s : DbState) (now : Int) (jid : Nat)
    (target : JobStatus) (naa : Option Int) (msg : Option String)
    (h : ∀ r ∈ s.jobs, r.job_id = jid → r.status ≠ priorStatusFor target) :
    updateJobStatusCore s now jid target naa (some (msgOrEmpty msg)) = (s, false)
      ∧ db_update_job_status s now jid target naa msg = (s, false) := by
  have hc := core_noop s now jid target naa (some (msgOrEmpty msg)) h
  refine ⟨hc, ?_⟩
  unfold db_update_job_status
  simp [hc]

/-- Witness for C2: cancelling the RUNNING job of `exampleState` (CANCELED
requires prior PENDING) fails and changes nothing. -/
theorem c2_bad_prior_no_mutation_witness :
    (∀ r ∈ exampleState.jobs, r.job_id = 1 → r.status ≠ priorStatusFor .CANCELED)
      ∧ (updateJobStatusCore exampleState 100 1 .CANCELED none
            (some (msgOrEmpty none)) = (exampleState, false)
        ∧ db_update_job_status exampleState 100 1 .CANCELED none none
            = (exampleState, false)) :=
  ⟨by decide, c2_bad_prior_no_mutation exampleState 100 1 .CANCELED none none (by decide)⟩

/-- Any `_update_job_status` call leaves the history table equal to the old
one with the trigger-generated entries appended (none on failure). -/
theorem core_hist_eq (s : DbState) (now : Int) (jid : Nat) (target : JobStatus)
    (naa : Option Int) (msg : Option String) :
    (updateJobStatusCore s now jid target naa msg).1.histories
      = s.histories ++ mkHistEntries s.nextHistoryId
          (s.jobs.filter fun r => decide (r.job_id = jid ∧ r.status = priorStatusFor target)) := by
  simp only [updateJobStatusCore, execUpdateStatus]
  split
  · rfl
  · simp [setJobFields]

/-- Any `_update_job_status` call only ever appends to the history table. -/
theorem core_hist (s : DbState) (now : Int) (jid : Nat) (target : JobStatus)
    (naa : Option Int) (msg : Option String) :
    ∃ t, (updateJobStatusCore s now jid target naa msg).1.histories
      = s.histories ++ t :=
  ⟨_, core_hist_eq s now jid target naa msg⟩

/-- One simulator iteration only ever appends to the history table. -/
theorem advance_hist (s : DbState) (now : Int) (snap : DbJob)
    (sd rd : Int) (d10 : Nat) :
    ∃ t, (advanceOne s now snap sd rd d10).histories = s.histories ++ t := by
  unfold advanceOne
  cases hT : advanceTargets snap sd rd d10 with
  | none => exact ⟨[], by simp⟩
  | some tup =>
    obtain ⟨target, tsa, tnaa, tmsg⟩ := tup
    obtain ⟨t, ht⟩ := core_hist s now snap.job_id target tnaa tmsg
    refine ⟨t, ?_⟩
    cases hok : (updateJobStatusCore s now snap.job_id target tnaa tmsg).2 <;>
      simp [hok, setStatusAt, ht]

/-- A whole simulator batch only ever appends to the history table. -/
theorem batch_hist (now : Int) :
    ∀ (batch : List (DbJob × Int × Int × Nat)) (s : DbState),
      ∃ t, (processBatch s now batch).histories = s.histories ++ t
  | [], s => ⟨[], by simp [processBatch]⟩
  | e :: batch, s => by
      obtain ⟨t1, h1⟩ := advance_hist s now e.1 e.2.1 e.2.2.1 e.2.2.2
      obtain ⟨t2, h2⟩ := batch_hist now batch (advanceOne s now e.1 e.2.1 e.2.2.1 e.2.2.2)
      refine ⟨t1 ++ t2, ?_⟩
      simp only [processBatch, List.foldl_cons] at h2 ⊢
      rw [h2, h1, List.append_assoc]

/-- The single job row of `exampleState`. -/
def exampleJob : DbJob :=
  { job_id := 1, created_at := 0, next_attempt_at := 5,
    status := .RUNNING, status_at := 0, message := none }

/-- C3: every successful transition appends exactly one history entry whose
`(status, status_at, message)` are the job's values immediately before the
transition, and no operation of the system (insert, transition — successful
or failed — or a simulator pass) ever updates or deletes an existing history
entry. -/
theorem c3_history_append_only (s : DbState) (now : Int) (jid : Nat)
    (target : JobStatus) (naa : Option Int) (msg : Option String)
    (hnd : (s.jobs.map (·.job_id)).Nodup) (j : DbJob) (hj : j ∈ s.jobs)
    (hid : j.job_id = jid) (hst : j.status = priorStatusFor target) :
    (updateJobStatusCore s now jid target naa msg).1.histories
        = s.histories ++ [{ job_history_id := s.nextHistoryId, job_id := j.job_id,
                            status := j.status, status_at := j.status_at,
                            message := j.message }]
    ∧ (∀ now2 naa2 msg2, (db_insert_job s now2 naa2 msg2).1.histories = s.histories)
    ∧ (∀ now2 jid2 target2 naa2 msg2, ∃ t,
        (db_update_job_status s now2 jid2 target2 naa2 msg2).1.histories
          = s.histories ++ t)
    ∧ (∀ now2 batch, ∃ t, (processBatch s now2 batch).histories = s.histories ++ t) := by
  refine ⟨?_, ?_, ?_, ?_⟩
  · rw [core_success s now jid target naa msg hnd j hj hid hst]
    simp [setJobFields]
  · intro now2 naa2 msg2
    simp [db_insert_job]
  · intro now2 jid2 target2 naa2 msg2
    obtain ⟨t, ht⟩ := core_hist s now2 jid2 target2 naa2 (some (msgOrEmpty msg2))
    unfold db_update_job_status
    cases hok : (updateJobStatusCore s now2 jid2 target2 naa2 (some (msgOrEmpty msg2))).2
    · exact ⟨[], by simp [hok]⟩
    · exact ⟨t, by simp [hok, ht]⟩
  · intro now2 batch
    exact batch_hist now2 batch s

/-- Witness for C3: finishing the RUNNING job of `exampleState` appends
exactly the history entry capturing its pre-transition state. -/
theorem c3_history_append_only_witness :
    ((exampleState.jobs.map (·.job_id)).Nodup ∧ exampleJob ∈ exampleState.jobs
      ∧ exampleJob.status = priorStatusFor .DONE)
    ∧ (updateJobStatusCore exampleState 100 1 .DONE none none).1.histories
        = exampleState.histories
          ++ [{ job_history_id := 1, job_id := 1, status := .RUNNING,
                status_at := 0, message := none }] :=
  ⟨⟨by decide, by decide, rfl⟩,
    (c3_history_append_only exampleState 100 1 .DONE none none (by decide)
      exampleJob (by decide) rfl rfl).1⟩

/-- Counterexample for C4: transitioning the RUNNING job of `exampleState`
back to PENDING while supplying no `next_attempt_at` succeeds, yet the
job's `next_attempt_at` is not blanked — it keeps its stored value `5`,
which (the job now being PENDING) is also externally visible. -/
theorem c4_counterexample :
    (db_update_job_status exampleState 100 1 .PENDING none none).2 = true
      ∧ (db_select_job (db_update_job_status exampleState 100 1 .PENDING none none).1 1).map
          (fun r => (Job.fromOrm r).next_attempt_at) = some (some 5)
      ∧ (db_select_job (db_update_job_status exampleState 100 1 .PENDING none none).1 1).map
          (fun r => r.status) = some .PENDING := by
  decide

/-- C4 (amended): on every successful transition the engine sets `status_at`
to now and replaces `message` with the supplied value (empty string if none
was supplied); `next_attempt_at` is set to the given value when one is
supplied and is left unchanged in the stored row when none is given. -/
theorem c4_transition_effects (s : DbState) (now : Int) (jid : Nat)
    (target : JobStatus) (naa : Option Int) (msg : Option String)
    (hnd : (s.jobs.map (·.job_id)).Nodup) (j : DbJob) (hj : j ∈ s.jobs)
    (hid : j.job_id = jid) (hst : j.status = priorStatusFor target) :
    (db_update_job_status s now jid target naa msg).2 = true
      ∧ db_select_job (db_update_job_status s now jid target naa msg).1 jid
          = some { j with status := target, status_at := now,
                          message := some (msgOrEmpty msg),
                          next_attempt_at := naa.getD j.next_attempt_at } := by
  have hcore := core_success s now jid target naa (some (msgOrEmpty msg)) hnd j hj hid hst
  have hflag : (updateJobStatusCore s now jid target naa (some (msgOrEmpty msg))).2 = true := by
    rw [hcore]
  have hwrap := wrapper_of_success s now jid target naa msg hflag
  refine ⟨by rw [hwrap, hflag], ?_⟩
  rw [hwrap, hcore]
  unfold db_select_job setJobFields
  simp only [List.map_map]
  rw [find_map_id_pres _ (fun r => by
    unfold applyStatusUpdate
    dsimp only [Function.comp]
    split <;> split <;> rfl)]
  rw [find_eq_of_mem s.jobs hnd j hj jid hid]
  simp only [Option.map_some', Function.comp, msgOrEmpty_some]
  unfold applyStatusUpdate
  have hcond : j.job_id = jid ∧ j.status = priorStatusFor target := ⟨hid, hst⟩
  rw [if_pos hcond]
  cases naa <;> simp [hid]

/-- Witness for C4 (amended): finishing the RUNNING job of `exampleState`
with an explicit `next_attempt_at` and message. -/
theorem c4_transition_effects_witness :
    ((exampleState.jobs.map (·.job_id)).Nodup ∧ exampleJob ∈ exampleState.jobs
      ∧ exampleJob.status = priorStatusFor .DONE)
    ∧ ((db_update_job_status exampleState 100 1 .DONE (some 7) (some "x")).2 = true
      ∧ db_select_job (db_update_job_status exampleState 100 1 .DONE (some 7) (some "x")).1 1
          = some { exampleJob with
                   status := JobStatus.DONE, status_at := 100,
                   message := some (msgOrEmpty (some "x")),
                   next_attempt_at := (some (7 : Int)).getD exampleJob.next_attempt_at }) :=
  ⟨⟨by decide, by decide, rfl⟩,
    c4_transition_effects exampleState 100 1 .DONE (some 7) (some "x") (by decide)
      exampleJob (by decide) rfl rfl⟩

/-- The `blank_next_attempt_at` validator suppresses `next_attempt_at` on
every serialised job whose status is not PENDING. -/
theorem fromOrm_naa (r : DbJob) (h : r.status ≠ JobStatus.PENDING) :
    (Job.fromOrm r).next_attempt_at = none := by
  unfold Job.fromOrm
  simp [h]

/-- C5: in every externally observable projection (every `Job` returned by
the public handlers — listing, single-job read, creation, cancellation),
`next_attempt_at` is present only when the job's status is PENDING; for any
non-PENDING job it reads as absent regardless of the stored value. -/
theorem c5_next_attempt_visible_only_pending (s : DbState) (st : Option JobStatus)
    (skip limit : Nat) (jid : Nat) (now : Int) (naa : Option Int)
    (msg : Option String) (j : Job)
    (h : j ∈ jobsEndpoint s st skip limit
      ∨ jobEndpoint s jid = .ok j
      ∨ j = (newJobEndpoint s now naa msg).2
      ∨ (cancelJobEndpoint s now jid naa msg).2 = .ok j) :
    j.status ≠ JobStatus.PENDING → j.next_attempt_at = none := by
  intro hstat
  rcases h with hmem | hjob | hnew | hcancel
  · obtain ⟨r, hr, rfl⟩ := List.mem_map.mp hmem
    exact fromOrm_naa r hstat
  · unfold jobEndpoint at hjob
    cases hsel : db_select_job s jid with
    | none => rw [hsel] at hjob; cases hjob
    | some r =>
        rw [hsel] at hjob
        injection hjob with h'
        subst h'
        exact fromOrm_naa r hstat
  · subst hnew
    exact fromOrm_naa _ hstat
  · simp only [cancelJobEndpoint] at hcancel
    cases hsel : db_select_job s jid with
    | none => rw [hsel] at hcancel; cases hcancel
    | some r0 =>
        rw [hsel] at hcancel
        by_cases hok : (db_update_job_status s now jid .CANCELED naa msg).2 = true
        · rw [if_pos hok] at hcancel
          cases hsel2 : db_select_job (db_update_job_status s now jid .CANCELED naa msg).1 jid with
          | none => rw [hsel2] at hcancel; cases hcancel
          | some r =>
              rw [hsel2] at hcancel
              injection hcancel with h'
              subst h'
              exact fromOrm_naa r hstat
        · rw [if_neg hok] at hcancel
          cases hcancel

/-- A finished job used to instantiate the visibility claim. -/
def doneJob : DbJob :=
  { job_id := 1, created_at := 0, next_attempt_at := 5,
    status := .DONE, status_at := 10, message := none }

/-- A one-job database whose job is DONE. -/
def doneState : DbState := { jobs := [doneJob], histories := [], nextJobId := 2, nextHistoryId := 1 }

/-- Witness for C5: the DONE job of `doneState`, read through the single-job
handler, shows no `next_attempt_at` although `5` is stored internally. -/
theorem c5_next_attempt_visible_only_pending_witness :
    ((Job.fromOrm doneJob ∈ jobsEndpoint doneState none 0 100
        ∨ jobEndpoint doneState 1 = .ok (Job.fromOrm doneJob)
        ∨ Job.fromOrm doneJob = (newJobEndpoint doneState 0 none none).2
        ∨ (cancelJobEndpoint doneState 0 1 none none).2 = .ok (Job.fromOrm doneJob))
      ∧ (Job.fromOrm doneJob).status ≠ JobStatus.PENDING)
    ∧ (Job.fromOrm doneJob).next_attempt_at = none :=
  ⟨⟨Or.inr (Or.inl rfl), by decide⟩,
    c5_next_attempt_visible_only_pending doneState none 0 100 1 0 none none
      (Job.fromOrm doneJob) (Or.inr (Or.inl rfl)) (by decide)⟩

/-- The validator `ensure_message` maps NULL to the empty string and keeps any stored
string. -/
theorem ensureMessage_getD (v : Option String) : ensureMessage v = v.getD "" := by
  cases v with
  | none => rfl
  | some m =>
      unfold ensureMessage
      split <;> simp_all

/-- C6: `db_insert_job` returns a persisted row with status PENDING,
`created_at` and `status_at` both now, `next_attempt_at` the given value or
now, `message` the given value (serialised as the empty string when none was
given), and a freshly generated job id strictly greater than every existing
one; well-formedness (unique, bounded ids) is preserved. -/
theorem c6_insert_job (s : DbState) (now : Int) (naa : Option Int)
    (msg : Option String) (hwf : WF s) :
    (db_insert_job s now naa msg).2.status = JobStatus.PENDING
    ∧ (db_insert_job s now naa msg).2.created_at = now
    ∧ (db_insert_job s now naa msg).2.status_at = now
    ∧ (db_insert_job s now naa msg).2.next_attempt_at = naa.getD now
    ∧ (db_insert_job s now naa msg).2.message = msg
    ∧ (Job.fromOrm (db_insert_job s now naa msg).2).message = msg.getD ""
    ∧ (∀ r ∈ s.jobs, r.job_id < (db_insert_job s now naa msg).2.job_id)
    ∧ (db_insert_job s now naa msg).1.jobs = s.jobs ++ [(db_insert_job s now naa msg).2]
    ∧ WF (db_insert_job s now naa msg).1 := by
  obtain ⟨hnd, hlt⟩ := hwf
  refine ⟨rfl, rfl, rfl, by cases naa <;> rfl, rfl, ensureMessage_getD msg,
    fun r hr => hlt r hr, rfl, ?_, ?_⟩
  · simp only [db_insert_job, List.map_append, List.map_cons, List.map_nil]
    refine List.nodup_append.mpr ⟨hnd, List.nodup_singleton _, fun a ha hb => ?_⟩
    simp only [List.mem_singleton] at hb
    subst hb
    obtain ⟨r, hr, hr2⟩ := List.mem_map.mp ha
    have := hlt r hr
    omega
  · intro r hr
    simp only [db_insert_job] at hr
    rcases List.mem_append.mp hr with h1 | h2
    · have := hlt r h1
      simp only [db_insert_job]
      omega
    · simp only [List.mem_singleton] at h2
      subst h2
      simp [db_insert_job]

/-- Witness for C6: inserting into the empty database. -/
theorem c6_insert_job_witness :
    WF { jobs := [], histories := [], nextJobId := 1, nextHistoryId := 1 }
    ∧ ((db_insert_job { jobs := [], histories := [], nextJobId := 1, nextHistoryId := 1 }
          20 (some 30) none).2.status = JobStatus.PENDING
      ∧ (db_insert_job { jobs := [], histories := [], nextJobId := 1, nextHistoryId := 1 }
          20 (some 30) none).2.created_at = 20
      ∧ (db_insert_job { jobs := [], histories := [], nextJobId := 1, nextHistoryId := 1 }
          20 (some 30) none).2.status_at = 20
      ∧ (db_insert_job { jobs := [], histories := [], nextJobId := 1, nextHistoryId := 1 }
          20 (some 30) none).2.next_attempt_at = (some (30 : Int)).getD 20
      ∧ (db_insert_job { jobs := [], histories := [], nextJobId := 1, nextHistoryId := 1 }
          20 (some 30) none).2.message = none
      ∧ (Job.fromOrm (db_insert_job { jobs := [], histories := [], nextJobId := 1, nextHistoryId := 1 }
          20 (some 30) none).2).message = (none : Option String).getD ""
      ∧ (∀ r ∈ ({ jobs := [], histories := [], nextJobId := 1, nextHistoryId := 1 } : DbState).jobs,
          r.job_id < (db_insert_job { jobs := [], histories := [], nextJobId := 1, nextHistoryId := 1 }
            20 (some 30) none).2.job_id)
      ∧ (db_insert_job { jobs := [], histories := [], nextJobId := 1, nextHistoryId := 1 }
          20 (some 30) none).1.jobs
          = ({ jobs := [], histories := [], nextJobId := 1, nextHistoryId := 1 } : DbState).jobs
            ++ [(db_insert_job { jobs := [], histories := [], nextJobId := 1, nextHistoryId := 1 }
              20 (some 30) none).2]
      ∧ WF (db_insert_job { jobs := [], histories := [], nextJobId := 1, nextHistoryId := 1 }
          20 (some 30) none).1) :=
  ⟨by decide,
    c6_insert_job { jobs := [], histories := [], nextJobId := 1, nextHistoryId := 1 }
      20 (some 30) none (by decide)⟩

/-- Joining the successive pages `drop (k * limit) |> take limit` of a list
reconstructs the list once the page count covers its length. -/
theorem pages_flatten {α : Type} (limit : Nat) :
    ∀ (n : Nat) (l : List α), l.length ≤ n * limit →
      ((List.range n).map fun k => (l.drop (k * limit)).take limit).flatten = l
  | 0, l, h => by
      have hl : l = [] := List.eq_nil_of_length_eq_zero (by omega)
      subst hl
      rfl
  | n + 1, l, h => by
      have hs : (n + 1) * limit = n * limit + limit := by ring
      have hIH := pages_flatten limit n (l.drop limit)
        (by rw [List.length_drop]; omega)
      rw [List.range_succ_eq_map, List.map_cons, List.map_map, List.flatten_cons]
      have hcomp : ((fun k => (l.drop (k * limit)).take limit) ∘ Nat.succ)
          = fun k => (((l.drop limit).drop (k * limit)).take limit) := by
        funext k
        simp only [Function.comp_apply]
        rw [List.drop_drop]
        have hmul : Nat.succ k * limit = limit + k * limit := by
          simp only [Nat.succ_eq_add_one]
          ring
        rw [hmul]
      rw [hcomp, hIH]
      simp only [Nat.zero_mul, List.drop_zero]
      exact List.take_append_drop limit l

/-- C7: `db_select_jobs` filters by status when one is given and returns
rows ordered by `created_at` descending with `job_id` descending as
tie-break; over a fixed dataset, with `limit` in `[1, 100]`, requesting
successive pages with `skip` stepped by `limit` yields every matching row
exactly once — the flattened pages are exactly the full ordered result set,
which is a permutation of the matching rows. -/
theorem c7_list_jobs_pagination (s : DbState) (st : Option JobStatus)
    (skip limit n : Nat) (h1 : 1 ≤ limit) (h2 : limit ≤ 100)
    (hn : (selectAllJobs s st).length ≤ n * limit) :
    List.Sorted jobAfter (db_select_jobs s st skip limit)
    ∧ ((List.range n).map fun k => db_select_jobs s st (k * limit) limit).flatten
        = selectAllJobs s st
    ∧ List.Perm (selectAllJobs s st) (filterStatus s.jobs st)
    ∧ List.Sorted jobAfter (selectAllJobs s st) := by
  have hsorted : List.Sorted jobAfter (selectAllJobs s st) :=
    List.sorted_insertionSort _ _
  refine ⟨?_, ?_, List.perm_insertionSort _ _, hsorted⟩
  · unfold db_select_jobs
    exact List.Pairwise.sublist
      (List.Sublist.trans (List.take_sublist _ _) (List.drop_sublist _ _)) hsorted
  · exact pages_flatten limit n (selectAllJobs s st) hn

/-- A two-job database used to instantiate the pagination claim. -/
def twoState : DbState :=
  { jobs := [{ job_id := 1, created_at := 0, next_attempt_at := 0,
               status := .PENDING, status_at := 0, message := none },
             { job_id := 2, created_at := 3, next_attempt_at := 0,
               status := .DONE, status_at := 0, message := none }],
    histories := [], nextJobId := 3, nextHistoryId := 1 }

/-- Witness for C7: paging `twoState` with `limit = 1` over two pages. -/
theorem c7_list_jobs_pagination_witness :
    (1 ≤ 1 ∧ 1 ≤ 100 ∧ (selectAllJobs twoState none).length ≤ 2 * 1)
    ∧ (List.Sorted jobAfter (db_select_jobs twoState none 0 1)
      ∧ ((List.range 2).map fun k => db_select_jobs twoState none (k * 1) 1).flatten
          = selectAllJobs twoState none
      ∧ List.Perm (selectAllJobs twoState none) (filterStatus twoState.jobs none)
      ∧ List.Sorted jobAfter (selectAllJobs twoState none)) :=
  ⟨⟨by decide, by decide, by decide⟩,
    c7_list_jobs_pagination twoState none 0 1 2 (by decide) (by decide) (by decide)⟩

/-- C8: for every RUNNING job the simulator concludes, the outcome is drawn
from 10 equally likely buckets (`randrange(0, 10, 1)`): the single bucket 0
yields DONE with message "Permanent failure"; the three buckets 1-3 yield
PENDING with `next_attempt_at` equal to the computed completion time
(`status_at` plus the uniform(5, 15) draw) plus 10 seconds and message
"Temporary failure"; the remaining six buckets yield DONE with no message. -/
theorem c8_running_outcome_buckets (snap : DbJob) (sd rd : Int)
    (hrun : snap.status = JobStatus.RUNNING) :
    advanceTargets snap sd rd 0
        = some (JobStatus.DONE, snap.status_at + rd, none, some "Permanent failure")
    ∧ (∀ d10, d10 = 1 ∨ d10 = 2 ∨ d10 = 3 →
        advanceTargets snap sd rd d10
          = some (JobStatus.PENDING, snap.status_at + rd,
              some (snap.status_at + rd + 10), some "Temporary failure"))
    ∧ (∀ d10, 4 ≤ d10 → d10 ≤ 9 →
        advanceTargets snap sd rd d10
          = some (JobStatus.DONE, snap.status_at + rd, none, none))
    ∧ ((List.range 10).filter fun d => decide (d = 0)).length = 1
    ∧ ((List.range 10).filter fun d => decide (d = 1 ∨ d = 2 ∨ d = 3)).length = 3
    ∧ ((List.range 10).filter fun d => decide (4 ≤ d ∧ d ≤ 9)).length = 6 := by
  obtain ⟨jid, jca, jnaa, jst, jsa, jmsg⟩ := snap
  dsimp only at hrun
  subst hrun
  refine ⟨rfl, ?_, ?_, by decide, by decide, by decide⟩
  · rintro d10 (rfl | rfl | rfl) <;> rfl
  · intro d10 h4 h9
    interval_cases d10 <;> rfl

/-- Witness for C8: bucket 0 on the RUNNING job of `exampleState`. -/
theorem c8_running_outcome_buckets_witness :
    exampleJob.status = JobStatus.RUNNING
    ∧ advanceTargets exampleJob 1 7 0
        = some (JobStatus.DONE, exampleJob.status_at + 7, none,
            some "Permanent failure") :=
  ⟨rfl, (c8_running_outcome_buckets exampleJob 1 7 rfl).1⟩

/-- Every target the simulator computes requires, as prior-status guard,
exactly the snapshot status it was computed from. -/
theorem advance_prior (snap : DbJob) (sd rd : Int) (d10 : Nat)
    (target : JobStatus) (tsa : Int) (tnaa : Option Int) (tmsg : Option String)
    (h : advanceTargets snap sd rd d10 = some (target, tsa, tnaa, tmsg)) :
    priorStatusFor target = snap.status := by
  obtain ⟨jid, jca, jnaa, jst, jsa, jmsg⟩ := snap
  cases jst
  case PENDING =>
    simp only [advanceTargets] at h
    obtain ⟨h1, -⟩ := Prod.mk.inj (Option.some.inj h)
    subst h1
    rfl
  case RUNNING =>
    simp only [advanceTargets] at h
    by_cases h0 : d10 = 0
    · rw [if_pos h0] at h
      obtain ⟨h1, -⟩ := Prod.mk.inj (Option.some.inj h)
      subst h1
      rfl
    · rw [if_neg h0] at h
      by_cases h123 : d10 = 1 ∨ d10 = 2 ∨ d10 = 3
      · rw [if_pos h123] at h
        obtain ⟨h1, -⟩ := Prod.mk.inj (Option.some.inj h)
        subst h1
        rfl
      · rw [if_neg h123] at h
        obtain ⟨h1, -⟩ := Prod.mk.inj (Option.some.inj h)
        subst h1
        rfl
  case DONE => exact Option.noConfusion h
  case CANCELED => exact Option.noConfusion h

/-- A simulator iteration on a job whose persisted status no longer matches
the snapshot it was selected under hits `BadPriorStatusError`, which is
logged and swallowed: the database is unchanged. -/
theorem advanceOne_noop (s : DbState) (now : Int) (snap : DbJob)
    (sd rd : Int) (d10 : Nat)
    (h : ∀ r ∈ s.jobs, r.job_id = snap.job_id → r.status ≠ snap.status) :
    advanceOne s now snap sd rd d10 = s := by
  unfold advanceOne
  cases hT : advanceTargets snap sd rd d10 with
  | none => rfl
  | some tup =>
      obtain ⟨target, tsa, tnaa, tmsg⟩ := tup
      have hprior := advance_prior snap sd rd d10 target tsa tnaa tmsg hT
      have hno : ∀ r ∈ s.jobs, r.job_id = snap.job_id →
          r.status ≠ priorStatusFor target := by
        intro r hr hrid
        rw [hprior]
        exact h r hr hrid
      have hcore := core_noop s now snap.job_id target tnaa tmsg hno
      simp [hcore]

/-- C9: during a simulator pass, a job whose persisted status conflicts with
its snapshot (so its transition raises `BadPriorStatusError`) is skipped for
that pass: removing it from the batch gives the same final state, so the
remaining jobs are all still processed and a single conflicting job never
aborts the pass. -/
theorem c9_conflict_skips_single_job (s : DbState) (now : Int)
    (pre post : List (DbJob × Int × Int × Nat))
    (snap : DbJob) (sd rd : Int) (d10 : Nat)
    (h : ∀ r ∈ (processBatch s now pre).jobs, r.job_id = snap.job_id →
        r.status ≠ snap.status) :
    processBatch s now (pre ++ (snap, sd, rd, d10) :: post)
      = processBatch s now (pre ++ post) := by
  unfold processBatch
  rw [List.foldl_append, List.foldl_append, List.foldl_cons]
  congr 1
  exact advanceOne_noop _ now snap sd rd d10 h

/-- A stale snapshot of `exampleJob`, claiming it were PENDING. -/
def staleSnap : DbJob := { exampleJob with status := .PENDING }

/-- Witness for C9: a batch whose first entry carries a stale snapshot of
the (actually RUNNING) job; it is skipped and the second entry is still
processed. -/
theorem c9_conflict_skips_single_job_witness :
    (∀ r ∈ (processBatch exampleState 100 []).jobs, r.job_id = staleSnap.job_id →
        r.status ≠ staleSnap.status)
    ∧ processBatch exampleState 100 ([] ++ (staleSnap, 1, 7, 0) :: [(exampleJob, 1, 7, 0)])
        = processBatch exampleState 100 ([] ++ [(exampleJob, 1, 7, 0)]) :=
  ⟨by decide,
    c9_conflict_skips_single_job exampleState 100 [] [(exampleJob, 1, 7, 0)]
      staleSnap 1 7 0 (by decide)⟩

/-- C10: the shipped history-listing endpoint distinguishes a missing job
from an empty history: for an id with no job row it fails with NotFound
(it pre-checks existence via `db_select_job`), and for an existing job with
no history entries it returns the empty sequence. -/
theorem c10_history_endpoint_distinguishes (s : DbState) (jid skip limit : Nat) :
    ((∀ r ∈ s.jobs, r.job_id ≠ jid) →
        jobHistoryEndpoint s jid skip limit = .error .notFound)
    ∧ (∀ j ∈ s.jobs, j.job_id = jid → (∀ h ∈ s.histories, h.job_id ≠ jid) →
        jobHistoryEndpoint s jid skip limit = .ok []) := by
  constructor
  · intro hno
    have hfind : db_select_job s jid = none := by
      unfold db_select_job
      refine List.find?_eq_none.mpr fun r hr => ?_
      simp [hno r hr]
    unfold jobHistoryEndpoint
    rw [hfind]
  · intro j hj hjid hnoh
    have hfind : db_select_job s jid ≠ none := by
      unfold db_select_job
      intro hn
      have := List.find?_eq_none.mp hn j hj
      simp [hjid] at this
    obtain ⟨r, hr⟩ := Option.ne_none_iff_exists'.mp hfind
    have hnil : s.histories.filter (fun h => decide (h.job_id = jid)) = [] :=
      List.filter_eq_nil_iff.mpr fun h hh => by simp [hnoh h hh]
    unfold jobHistoryEndpoint
    rw [hr]
    unfold db_select_job_histories
    rw [hnil]
    simp

/-- Witness for C10: `exampleState` has job 1 and an empty history table, so
listing job 1's history yields the empty sequence (while id 9, having no
row, yields NotFound — covered by the same theorem's first conjunct). -/
theorem c10_history_endpoint_distinguishes_witness :
    (exampleJob ∈ exampleState.jobs ∧ exampleJob.job_id = 1
      ∧ (∀ h ∈ exampleState.histories, h.job_id ≠ 1))
    ∧ jobHistoryEndpoint exampleState 1 0 100 = .ok [] :=
  ⟨⟨by decide, rfl, by decide⟩,
    (c10_history_endpoint_distinguishes exampleState 1 0 100).2 exampleJob
      (by decide) rfl (by decide)⟩

end MM
